import Mathlib

/-
Verification of the SQL Server dialect adapter (sqlserver.go): a shallow
embedding of the capability classifier, the identifier quoter, and the two
clause-rewrite strategies (modern OFFSET/FETCH vs. legacy row-number
emulation), together with theorems checking the specification's claims.

Strings are modelled by Lean `String`/`List Char`; Go `int` is modelled by
`Int` (with the 64-bit range check made explicit where `strconv` performs
one). Renderings of clause expressions owned by the host framework (the
SELECT projection, FROM source and ORDER BY key list) are modelled as
opaque rendered strings carried by the statement.
-/

/-- Embedding of Go `strings.Split(s, ".")` at the character-list level:
splits on every dot, keeping empty segments; the result is always
non-empty. -/
def splitOnDot : List Char → List (List Char)
  | [] => [[]]
  | c :: cs =>
    if c = '.' then [] :: splitOnDot cs
    else
      match splitOnDot cs with
      | [] => [[c]]
      | p :: ps => (c :: p) :: ps

/-- Whether `pat` occurs at the head of `l` (char-wise equality). -/
def leadMatch : List Char → List Char → Bool
  | [], _ => true
  | _ :: _, [] => false
  | a :: as, b :: bs => a = b && leadMatch as bs

/-- Embedding of `strings.Contains` for a fixed non-empty pattern:
substring occurrence test. -/
def containsSub (pat : List Char) : List Char → Bool
  | [] => false
  | c :: cs => leadMatch pat (c :: cs) || containsSub pat cs

/-- The ASCII part of Go `unicode.IsSpace`, which is all that matters for
edition labels. -/
def isGoSpace (c : Char) : Bool :=
  c = ' ' || c = '\t' || c = '\n' || c = '\x0b' || c = '\x0c' || c = '\r'

/-- Embedding of Go `strings.TrimSpace` (ASCII whitespace). -/
def trimSpace (l : List Char) : List Char :=
  ((l.dropWhile isGoSpace).reverse.dropWhile isGoSpace).reverse

/-- The 64-bit marker `is64Identifier` from `GetVersionAndType`. -/
def pat64 : List Char := "(64-bit)".data

/-- Fuelled worker for `replaceAll64`.  The fuel is only a structural
termination device: it starts at the length of the list and every step
consumes at least one character of the list, so it is never exhausted. -/
def replaceAll64F : Nat → List Char → List Char
  | _, [] => []
  | 0, l => l
  | fuel + 1, c :: cs =>
    if leadMatch pat64 (c :: cs) then replaceAll64F fuel (cs.drop 7)
    else c :: replaceAll64F fuel cs

/-- Embedding of `strings.ReplaceAll(edStr, "(64-bit)", "")`: removes every
(left-to-right, non-overlapping) occurrence of the 8-character marker. -/
def replaceAll64 (l : List Char) : List Char :=
  replaceAll64F l.length l

/-- Digit-string accumulator used by `atoiParse`. -/
def parseDigits : List Char → Nat → Option Nat
  | [], acc => some acc
  | c :: cs, acc =>
    if c.isDigit then parseDigits cs (acc * 10 + (c.toNat - '0'.toNat))
    else none

/-- Syntax level of Go `strconv.Atoi`: an optional sign followed by one or
more decimal digits, nothing else; `none` is a syntax error. -/
def atoiParse (s : List Char) : Option Int :=
  match s with
  | [] => none
  | '+' :: rest =>
    if rest = [] then none else (parseDigits rest 0).map (fun n => (n : Int))
  | '-' :: rest =>
    if rest = [] then none else (parseDigits rest 0).map (fun n => -(n : Int))
  | _ => (parseDigits s 0).map (fun n => (n : Int))

def int64Max : Int := 9223372036854775807

def int64Min : Int := -9223372036854775808

/-- Embedding of Go `strconv.Atoi` on a 64-bit platform: returns the Go
`(value, err == nil)` pair — `(0, false)` on a syntax error, the clamped
bound and `false` on a range error. -/
def atoiL (s : List Char) : Int × Bool :=
  match atoiParse s with
  | none => (0, false)
  | some v =>
    if v > int64Max then (int64Max, false)
    else if v < int64Min then (int64Min, false)
    else (v, true)

/-- The `Edition` enumeration of sqlserver.go (`iota + 1`). -/
inductive Edition where
  | Enterprise
  | Business
  | Developer
  | Express
  | ExpressAdvanced
  | Standard
  | Web
  | Azure
  | AzureEdge
  | AzureEdgeDeveloper
  | Unknown
deriving DecidableEq, Repr

/-- The Go integer value of each `Edition` constant (`Enterprise = 1`,
…, `Unknown = 11`); Go compares editions by this value. -/
def Edition.val : Edition → Int
  | .Enterprise => 1
  | .Business => 2
  | .Developer => 3
  | .Express => 4
  | .ExpressAdvanced => 5
  | .Standard => 6
  | .Web => 7
  | .Azure => 8
  | .AzureEdge => 9
  | .AzureEdgeDeveloper => 10
  | .Unknown => 11

/-- The errors `GetVersionAndType` can return. -/
inductive VErr where
  | missingIdentity
  | malformedVersion
deriving DecidableEq, Repr

/-- The part of the dialector configuration the classifier reads. -/
structure Config where
  ProductVersion : String
  Edition : String

/-- The edition-label switch of `GetVersionAndType` (exact-match lookup;
anything else is `Unknown`). -/
def parseEdition (s : String) : Edition :=
  if s = "Enterprise Edition" ∨ s = "Enterprise Edition: Core-based Licensing" ∨
      s = "Enterprise Evaluation Edition" then .Enterprise
  else if s = "Business Intelligence Edition" then .Business
  else if s = "Developer Edition" then .Developer
  else if s = "Express Edition" then .Express
  else if s = "Express Edition with Advanced Services" then .ExpressAdvanced
  else if s = "Standard Edition" then .Standard
  else if s = "Web Edition" then .Web
  else if s = "SQL Azure" then .Azure
  else if s = "Azure SQL Edge" then .AzureEdge
  else if s = "Azure SQL Edge Developer" then .AzureEdgeDeveloper
  else .Unknown

/-- The closed set of labels recognised by the switch in
`GetVersionAndType`. -/
def knownEditionLabels : List String :=
  ["Enterprise Edition", "Enterprise Edition: Core-based Licensing",
   "Enterprise Evaluation Edition", "Business Intelligence Edition",
   "Developer Edition", "Express Edition",
   "Express Edition with Advanced Services", "Standard Edition",
   "Web Edition", "SQL Azure", "Azure SQL Edge", "Azure SQL Edge Developer"]

/-- The 64-bit-marker stripping step of `GetVersionAndType`: if the marker
occurs, remove all its occurrences, trim whitespace and report
`is64Bit = true`. -/
def strip64 (ed : List Char) : List Char × Bool :=
  if containsSub pat64 ed then (trimSpace (replaceAll64 ed), true) else (ed, false)

/-- The major-version step of `GetVersionAndType`: `Atoi` on the first
dot-segment, `malformedVersion` on failure.  (The `[]` branch mirrors the
`len(versionParts) > 0` guard; `splitOnDot` never returns `[]`.) -/
def majorResult (cfg : Config) : Except VErr Int :=
  match splitOnDot cfg.ProductVersion.data with
  | [] => .ok 0
  | p :: _ => if (atoiL p).2 then .ok (atoiL p).1 else .error .malformedVersion

/-- The minor-version step of `GetVersionAndType`: `Atoi` on the second
dot-segment with the error ignored (so the Go zero value / clamped value is
kept), `0` when there is no second segment. -/
def minorOf (cfg : Config) : Int :=
  match splitOnDot cfg.ProductVersion.data with
  | _ :: q :: _ => (atoiL q).1
  | _ => 0

/-- Embedding of `Dialector.GetVersionAndType`. -/
def GetVersionAndType (cfg : Config) : Except VErr (Int × Int × Edition × Bool) :=
  if cfg.ProductVersion = "" then .error .missingIdentity
  else if cfg.Edition = "" then .error .missingIdentity
  else
    match majorResult cfg with
    | .error e => .error e
    | .ok vmaj =>
      .ok (vmaj, minorOf cfg, parseEdition ⟨(strip64 cfg.Edition.data).1⟩,
           (strip64 cfg.Edition.data).2)

/-- Embedding of `Dialector.IsUnsupportedSQLServer`: classification errors
are swallowed (the `else` branch returns `false`). -/
def IsUnsupportedSQLServer (cfg : Config) : Bool :=
  match GetVersionAndType cfg with
  | .ok (maj, _, ed, _) => if maj < 11 ∧ ed.val < Edition.Azure.val then true else false
  | .error _ => false

/-- The two clause-builder sets `ClauseBuilders` can install. -/
inductive Strategy where
  | modern
  | legacy
deriving DecidableEq, Repr

/-- The strategy selection performed by `ClauseBuilders`: the legacy
(`getUnsupportedClauses`) set when `IsUnsupportedSQLServer`, the modern set
otherwise. -/
def selectStrategy (cfg : Config) : Strategy :=
  if IsUnsupportedSQLServer cfg then .legacy else .modern

/-- Embedding of `Dialector.QuoteTo` at the character-list level: a leading
quote is always written; if the name holds a dot, each dot-separated
segment is closed with a quote and every later segment is opened with
`."`; otherwise the whole name is closed with a quote. -/
def quoteToL (l : List Char) : List Char :=
  '"' ::
    (if '.' ∈ l then
      match splitOnDot l with
      | [] => []
      | p :: ps => p ++ '"' :: (ps.map (fun q => '.' :: '"' :: (q ++ ['"']))).flatten
    else l ++ ['"'])

/-- `Dialector.QuoteTo` on `String`s (also the model of the framework's
`WriteQuoted`, which delegates to the dialector). -/
def QuoteTo (s : String) : String := ⟨quoteToL s.data⟩

/-- The `clause.Limit` expression: Go `int` limit and offset. -/
structure LimitClause where
  limit : Int
  offset : Int
deriving DecidableEq, Repr

/-- The view of a `gorm.Statement` read by the clause builders.
`orderBy`/`fromClause` are the rendered expressions of the registered
ORDER BY / FROM clauses when present; `primaryKey` is
`Schema.PrioritizedPrimaryField.DBName` when the statement carries a schema
with a prioritized primary field. -/
structure Stmt where
  limitClause : Option LimitClause
  orderBy : Option String
  primaryKey : Option String
  selects : List String
  fromClause : Option String
  table : String

/-- Embedding of `getLimitAndOffsetIfExists`: the registered LIMIT
clause's pair, or an error (`none`) when no such clause is registered. -/
def getLimitAndOffsetIfExists (stmt : Stmt) : Option (Int × Int) :=
  match stmt.limitClause with
  | some l => some (l.limit, l.offset)
  | none => none

/-- Embedding of the legacy `"SELECT"` builder of `getUnsupportedClauses`;
`selectExpr` is the rendering of the caller's `clause.Select` expression. -/
def legacySelect (stmt : Stmt) (selectExpr : String) : String :=
  "SELECT " ++
    (match getLimitAndOffsetIfExists stmt with
     | some (limit, offset) => if offset = 0 then "TOP(" ++ toString limit ++ ") " else ""
     | none => "") ++
    selectExpr

/-- Embedding of the legacy `"FROM"` builder of `getUnsupportedClauses`.
`fromExpr` is the rendering of the built clause's own `clause.From`
expression (used by the passthrough branch). Returns the emitted text and
the list of `(condition, bound value)` pairs injected into the statement's
WHERE clause set via `BuildCondition`/`AddClause`. -/
def legacyFrom (stmt : Stmt) (fromExpr : String) : String × List (String × Int) :=
  match getLimitAndOffsetIfExists stmt with
  | some (limit, offset) =>
    if offset > 0 then
      let proj : String :=
        if stmt.selects.length > 0 then
          String.join (stmt.selects.map (fun s => QuoteTo s ++ ",")) ++ "ROW_NUMBER()"
        else "SELECT *, ROW_NUMBER()"
      let ordKey : String :=
        match stmt.orderBy with
        | some ob => ob
        | none =>
          match stmt.primaryKey with
          | some pk => QuoteTo pk ++ " "
          | none => "(SELECT NULL) "
      let inner : String :=
        match stmt.fromClause with
        | some f => "FROM " ++ f
        | none => "FROM " ++ QuoteTo stmt.table
      let conds : List (String × Int) :=
        (if offset > 0 then [("row > ?", offset)] else []) ++
        (if limit > 0 then
          [("row <= ?", if offset = 0 then limit else limit + offset)]
         else [])
      ("FROM (" ++ proj ++ " OVER (ORDER BY " ++ ordKey ++ ") AS row " ++ inner ++ ") a",
       conds)
    else ("FROM " ++ fromExpr, [])
  | none => ("FROM " ++ fromExpr, [])

/-- Embedding of the legacy `"ORDER BY"` builder of
`getUnsupportedClauses`; `orderExpr` is the rendering of the built
clause's `clause.OrderBy` expression. -/
def legacyOrderBy (stmt : Stmt) (orderExpr : String) : String :=
  match getLimitAndOffsetIfExists stmt with
  | some (_, offset) => if offset = 0 then "ORDER BY " ++ orderExpr else ""
  | none => "ORDER BY " ++ orderExpr

/-- Embedding of the legacy `"LIMIT"` builder of `getUnsupportedClauses`:
it emits nothing. -/
def legacyLimit (_ : Stmt) : String := ""

/-- Embedding of the modern `"LIMIT"` builder of `ClauseBuilders`; `l` is
the built clause's `clause.Limit` expression. -/
def modernLimit (stmt : Stmt) (l : LimitClause) : String :=
  (match stmt.orderBy with
   | some _ => ""
   | none =>
     match stmt.primaryKey with
     | some pk => "ORDER BY " ++ QuoteTo pk ++ " "
     | none => "ORDER BY (SELECT NULL) ") ++
  (if l.offset > 0 then "OFFSET " ++ toString l.offset ++ " ROWS" else "") ++
  (if l.limit > 0 then
    (if l.offset = 0 then "OFFSET 0 ROW" else "") ++
      " FETCH NEXT " ++ toString l.limit ++ " ROWS ONLY"
   else "")

/-! ### Basic lemmas about the split and quote helpers -/

theorem splitOnDot_ne_nil (l : List Char) : splitOnDot l ≠ [] := by
  cases l with
  | nil => simp [splitOnDot]
  | cons c cs =>
    simp only [splitOnDot]
    split
    · simp
    · split <;> simp

theorem splitOnDot_eq_single (l : List Char) (h : '.' ∉ l) : splitOnDot l = [l] := by
  induction l with
  | nil => rfl
  | cons c cs ih =>
    have hc : ¬ c = '.' := by
      intro hc
      exact h (by simp [hc])
    have hcs : '.' ∉ cs := by
      intro hm
      exact h (List.mem_cons_of_mem _ hm)
    simp [splitOnDot, hc, ih hcs]

theorem intercalate_cons2 (sep a b : List Char) (t : List (List Char)) :
    List.intercalate sep (a :: b :: t) = a ++ sep ++ List.intercalate sep (b :: t) := by
  simp [List.intercalate, List.intersperse_cons_cons, List.append_assoc]

theorem quote_wrap_aux (p : List Char) (ps : List (List Char)) :
    List.intercalate ['.'] ((p :: ps).map (fun q => '"' :: (q ++ ['"']))) =
      '"' :: (p ++ '"' :: (ps.map (fun q => '.' :: '"' :: (q ++ ['"']))).flatten) := by
  induction ps generalizing p with
  | nil => simp [List.intercalate, List.intersperse_singleton]
  | cons q qs ih =>
    have h2 := ih q
    simp only [List.map_cons] at h2 ⊢
    rw [intercalate_cons2, h2]
    simp [List.append_assoc]

/-! ### Classifier helper lemmas -/

theorem getVersion_empty (cfg : Config)
    (h : cfg.ProductVersion = "" ∨ cfg.Edition = "") :
    GetVersionAndType cfg = .error .missingIdentity := by
  by_cases h1 : cfg.ProductVersion = ""
  · simp [GetVersionAndType, h1]
  · rcases h with h | h
    · exact absurd h h1
    · simp [GetVersionAndType, h1, h]

theorem getVersion_malformed (cfg : Config)
    (h1 : cfg.ProductVersion ≠ "") (h2 : cfg.Edition ≠ "")
    (p : List Char) (rest : List (List Char))
    (hsp : splitOnDot cfg.ProductVersion.data = p :: rest)
    (hbad : (atoiL p).2 = false) :
    GetVersionAndType cfg = .error .malformedVersion := by
  simp [GetVersionAndType, h1, h2, majorResult, hsp, hbad]

theorem getVersion_ok (cfg : Config)
    (h1 : cfg.ProductVersion ≠ "") (h2 : cfg.Edition ≠ "")
    (p : List Char) (rest : List (List Char))
    (hsp : splitOnDot cfg.ProductVersion.data = p :: rest)
    (hgood : (atoiL p).2 = true) :
    GetVersionAndType cfg =
      .ok ((atoiL p).1, minorOf cfg, parseEdition ⟨(strip64 cfg.Edition.data).1⟩,
           (strip64 cfg.Edition.data).2) := by
  simp [GetVersionAndType, h1, h2, majorResult, hsp, hgood]

theorem parseEdition_not_known (s : String) (h : s ∉ knownEditionLabels) :
    parseEdition s = .Unknown := by
  simp only [knownEditionLabels, List.mem_cons, List.not_mem_nil, or_false, not_or] at h
  obtain ⟨h1, h2, h3, h4, h5, h6, h7, h8, h9, h10, h11, h12⟩ := h
  simp [parseEdition, h1, h2, h3, h4, h5, h6, h7, h8, h9, h10, h11, h12]

/-! ### Claim theorems -/

/-- Claim C9: for every identifier, `QuoteTo` wraps each dot-separated
segment individually in double quotes, leaving the separating dots
unquoted; in particular `QuoteTo "dbo.Users"` yields `"dbo"."Users"` and
`QuoteTo "Users"` yields `"Users"`. -/
theorem quoteTo_wraps_segments :
    (∀ l : List Char, quoteToL l =
        List.intercalate ['.'] ((splitOnDot l).map (fun p => '"' :: (p ++ ['"'])))) ∧
    QuoteTo "dbo.Users" = "\"dbo\".\"Users\"" ∧
    QuoteTo "Users" = "\"Users\"" := by
  refine ⟨fun l => ?_, rfl, rfl⟩
  by_cases h : '.' ∈ l
  · cases hsp : splitOnDot l with
    | nil => exact absurd hsp (splitOnDot_ne_nil l)
    | cons p ps =>
      rw [quote_wrap_aux]
      simp [quoteToL, h, hsp]
  · rw [splitOnDot_eq_single l h]
    simp [quoteToL, h, List.intercalate, List.intersperse_singleton]

/-- Claim C6: `GetVersionAndType` fails with `missingIdentity` exactly for
an empty version or edition string, fails with `malformedVersion` exactly
when the strings are non-empty but the first dot-segment of the version
does not parse as an integer, and succeeds otherwise; a non-parsing second
segment is tolerated with minor = 0, and an edition string outside the
known label set classifies as `Unknown` without failing. -/
theorem classify_failure_spec (cfg : Config) :
    (GetVersionAndType cfg = .error .missingIdentity ↔
      cfg.ProductVersion = "" ∨ cfg.Edition = "") ∧
    (GetVersionAndType cfg = .error .malformedVersion ↔
      cfg.ProductVersion ≠ "" ∧ cfg.Edition ≠ "" ∧
        (atoiL ((splitOnDot cfg.ProductVersion.data).headD [])).2 = false) ∧
    ((∃ r, GetVersionAndType cfg = .ok r) ↔
      cfg.ProductVersion ≠ "" ∧ cfg.Edition ≠ "" ∧
        (atoiL ((splitOnDot cfg.ProductVersion.data).headD [])).2 = true) ∧
    (∀ p q rest, splitOnDot cfg.ProductVersion.data = p :: q :: rest →
      atoiParse q = none →
      ∀ maj mino ed b64, GetVersionAndType cfg = .ok (maj, mino, ed, b64) →
        mino = 0) ∧
    (∀ maj mino ed b64, GetVersionAndType cfg = .ok (maj, mino, ed, b64) →
      (⟨(strip64 cfg.Edition.data).1⟩ : String) ∉ knownEditionLabels →
      ed = Edition.Unknown) := by
  obtain ⟨p, rest, hsp⟩ : ∃ p rest, splitOnDot cfg.ProductVersion.data = p :: rest := by
    cases h : splitOnDot cfg.ProductVersion.data with
    | nil => exact absurd h (splitOnDot_ne_nil _)
    | cons p rest => exact ⟨p, rest, rfl⟩
  by_cases h1 : cfg.ProductVersion = ""
  · have he := getVersion_empty cfg (Or.inl h1)
    refine ⟨?_, ?_, ?_, ?_, ?_⟩
    · simp [he, h1]
    · simp [he, h1]
    · simp [he, h1]
    · intro p' q' rest' _ _ maj mino ed b64 hok
      rw [he] at hok
      cases hok
    · intro maj mino ed b64 hok
      rw [he] at hok
      cases hok
  · by_cases h2 : cfg.Edition = ""
    · have he := getVersion_empty cfg (Or.inr h2)
      refine ⟨?_, ?_, ?_, ?_, ?_⟩
      · simp [he, h2]
      · simp [he, h2]
      · simp [he, h2]
      · intro p' q' rest' _ _ maj mino ed b64 hok
        rw [he] at hok
        cases hok
      · intro maj mino ed b64 hok
        rw [he] at hok
        cases hok
    · cases hA : (atoiL p).2 with
      | false =>
        have hm := getVersion_malformed cfg h1 h2 p rest hsp hA
        refine ⟨?_, ?_, ?_, ?_, ?_⟩
        · simp [hm, h1, h2]
        · simp [hm, h1, h2, hsp, hA]
        · simp [hm, h1, h2, hsp, hA]
        · intro p' q' rest' _ _ maj mino ed b64 hok
          rw [hm] at hok
          cases hok
        · intro maj mino ed b64 hok
          rw [hm] at hok
          cases hok
      | true =>
        have hk := getVersion_ok cfg h1 h2 p rest hsp hA
        refine ⟨?_, ?_, ?_, ?_, ?_⟩
        · simp [hk, h1, h2]
        · simp [hk, h1, h2, hsp, hA]
        · constructor
          · intro _
            exact ⟨h1, h2, by simp [hsp, hA]⟩
          · intro _
            exact ⟨_, hk⟩
        · intro p' q' rest' hsp' hq' maj mino ed b64 hok
          rw [hk] at hok
          simp only [Except.ok.injEq, Prod.mk.injEq] at hok
          have hmino : mino = minorOf cfg := hok.2.1.symm
          rw [hmino]
          simp [minorOf, hsp', atoiL, hq']
        · intro maj mino ed b64 hok hnk
          rw [hk] at hok
          simp only [Except.ok.injEq, Prod.mk.injEq] at hok
          have hed : ed = parseEdition ⟨(strip64 cfg.Edition.data).1⟩ := hok.2.2.1.symm
          rw [hed]
          exact parseEdition_not_known _ hnk

/-- Witness for C6: "10.x" with an unrecognised edition "Mystery"
classifies successfully with minor 0 and edition Unknown. -/
theorem classify_failure_spec_witness :
    (∃ r, GetVersionAndType ⟨"10.x", "Mystery"⟩ = .ok r) ∧
    (0 : Int) = 0 ∧ Edition.Unknown = Edition.Unknown := by
  have h := classify_failure_spec ⟨"10.x", "Mystery"⟩
  refine ⟨h.2.2.1.mpr ⟨by decide, by decide, by decide⟩, ?_, ?_⟩
  · exact h.2.2.2.1 ['1', '0'] ['x'] [] rfl rfl 10 0 Edition.Unknown false rfl
  · exact h.2.2.2.2 10 0 Edition.Unknown false rfl (by decide)

/-- Claim C7: for a successfully classified identity,
`IsUnsupportedSQLServer` is true exactly when the parsed major version is
below 11 and the edition category precedes `Azure` in the enumeration
ordering; in particular true for (10, Standard), false for (10, SQL Azure)
and for (12, Express). -/
theorem unsupported_iff_spec (cfg : Config) (maj mino : Int) (ed : Edition) (b64 : Bool)
    (h : GetVersionAndType cfg = .ok (maj, mino, ed, b64)) :
    (IsUnsupportedSQLServer cfg = true ↔ maj < 11 ∧ ed.val < Edition.Azure.val) ∧
    IsUnsupportedSQLServer ⟨"10.0.1600.22", "Standard Edition"⟩ = true ∧
    IsUnsupportedSQLServer ⟨"10.0.1600.22", "SQL Azure"⟩ = false ∧
    IsUnsupportedSQLServer ⟨"12.0.2000.8", "Express Edition"⟩ = false := by
  refine ⟨?_, rfl, rfl, rfl⟩
  simp only [IsUnsupportedSQLServer, h]
  split <;> simp_all

/-- Witness for C7 at the identity ("10.0", "Standard Edition"). -/
theorem unsupported_iff_spec_witness :
    (IsUnsupportedSQLServer ⟨"10.0", "Standard Edition"⟩ = true ↔
      (10 : Int) < 11 ∧ Edition.Standard.val < Edition.Azure.val) ∧
    IsUnsupportedSQLServer ⟨"10.0.1600.22", "Standard Edition"⟩ = true ∧
    IsUnsupportedSQLServer ⟨"10.0.1600.22", "SQL Azure"⟩ = false ∧
    IsUnsupportedSQLServer ⟨"12.0.2000.8", "Express Edition"⟩ = false :=
  unsupported_iff_spec ⟨"10.0", "Standard Edition"⟩ 10 0 Edition.Standard false rfl

/-- Claim C8 counterexample: an unparsable version string makes
`GetVersionAndType` fail, yet `ClauseBuilders` still installs the modern
clause set (the error is swallowed, not surfaced). -/
theorem classification_error_not_propagated :
    GetVersionAndType ⟨"garbage", "Standard Edition"⟩ = .error .malformedVersion ∧
    selectStrategy ⟨"garbage", "Standard Edition"⟩ = .modern := ⟨rfl, rfl⟩

/-- Claim C8 amended: whenever classification fails,
`IsUnsupportedSQLServer` reports false and the modern clause-builder set is
the one installed; the classification error never reaches tier selection. -/
theorem classification_error_selects_modern (cfg : Config) (e : VErr)
    (h : GetVersionAndType cfg = .error e) :
    selectStrategy cfg = .modern := by
  simp [selectStrategy, IsUnsupportedSQLServer, h]

/-- Witness for the amended C8 at the identity ("abc", "Web Edition"). -/
theorem classification_error_selects_modern_witness :
    selectStrategy ⟨"abc", "Web Edition"⟩ = Strategy.modern :=
  classification_error_selects_modern ⟨"abc", "Web Edition"⟩ .malformedVersion rfl

/-- Claim C1: in the legacy strategy, a registered LIMIT clause with
offset > 0 makes the FROM builder emit the row-numbered subquery (caller's
select list or `*`, plus ROW_NUMBER() over the caller's ORDER BY, else the
primary key, else a constant key) and inject `row > offset`, plus
`row <= limit + offset` exactly when limit > 0; the SELECT builder emits no
TOP modifier and the outer ORDER BY builder emits nothing. -/
theorem legacy_offset_pagination_rewrite
    (stmt : Stmt) (selectExpr orderExpr fromExpr : String) (limit offset : Int)
    (hlim : stmt.limitClause = some ⟨limit, offset⟩) (hoff : offset > 0) :
    legacySelect stmt selectExpr = "SELECT " ++ selectExpr ∧
    legacyOrderBy stmt orderExpr = "" ∧
    (legacyFrom stmt fromExpr).1 =
      "FROM (" ++
        (if stmt.selects.length > 0 then
          String.join (stmt.selects.map (fun s => QuoteTo s ++ ",")) ++ "ROW_NUMBER()"
         else "SELECT *, ROW_NUMBER()") ++
      " OVER (ORDER BY " ++
        (match stmt.orderBy with
         | some ob => ob
         | none =>
           match stmt.primaryKey with
           | some pk => QuoteTo pk ++ " "
           | none => "(SELECT NULL) ") ++
      ") AS row " ++
        (match stmt.fromClause with
         | some f => "FROM " ++ f
         | none => "FROM " ++ QuoteTo stmt.table) ++
      ") a" ∧
    (legacyFrom stmt fromExpr).2 =
      ("row > ?", offset) ::
        (if limit > 0 then [("row <= ?", limit + offset)] else []) := by
  have hg : getLimitAndOffsetIfExists stmt = some (limit, offset) := by
    simp [getLimitAndOffsetIfExists, hlim]
  have hne : ¬ offset = 0 := by omega
  refine ⟨?_, ?_, ?_, ?_⟩
  · simp [legacySelect, hg, hne]
  · simp [legacyOrderBy, hg, hne]
  · simp [legacyFrom, hg, hoff]
  · simp [legacyFrom, hg, hoff, hne]

/-- Witness for C1 at limit = 10, offset = 20: the injected predicates are
`row > 20` and `row <= 30`. -/
theorem legacy_offset_pagination_rewrite_witness :
    legacySelect ⟨some ⟨10, 20⟩, some "\"name\" DESC", none, [], some "\"users\"", "users"⟩
        "*" = "SELECT *" ∧
    legacyOrderBy ⟨some ⟨10, 20⟩, some "\"name\" DESC", none, [], some "\"users\"", "users"⟩
        "\"name\" DESC" = "" ∧
    (legacyFrom ⟨some ⟨10, 20⟩, some "\"name\" DESC", none, [], some "\"users\"", "users"⟩
        "\"users\"").1 =
      "FROM (SELECT *, ROW_NUMBER() OVER (ORDER BY \"name\" DESC) AS row FROM \"users\") a" ∧
    (legacyFrom ⟨some ⟨10, 20⟩, some "\"name\" DESC", none, [], some "\"users\"", "users"⟩
        "\"users\"").2 = [("row > ?", 20), ("row <= ?", 30)] :=
  legacy_offset_pagination_rewrite _ "*" "\"name\" DESC" "\"users\"" 10 20 rfl (by decide)

/-- Claim C2 (code bug): with a registered LIMIT clause of limit = 0 and
offset = 0 the legacy rewrite is not a no-op: the SELECT builder emits the
row-capping modifier `TOP(0)` (a query returning zero rows), even though
the FROM builder does pass through and injects no predicate. -/
theorem legacy_zero_zero_emits_top_zero :
    legacySelect ⟨some ⟨0, 0⟩, none, none, [], none, "users"⟩ "*" = "SELECT TOP(0) *" ∧
    legacyFrom ⟨some ⟨0, 0⟩, none, none, [], none, "users"⟩ "\"users\"" =
      ("FROM \"users\"", []) := by
  exact ⟨rfl, rfl⟩

/-- Claim C3: in the legacy strategy, limit > 0 with offset = 0 prepends
`TOP(<limit>)` right after the SELECT keyword, passes FROM and ORDER BY
through unchanged, injects no predicate, and the LIMIT builder emits
nothing. -/
theorem legacy_top_capping
    (stmt : Stmt) (selectExpr orderExpr fromExpr : String) (limit : Int)
    (hlim : stmt.limitClause = some ⟨limit, 0⟩) (_hpos : limit > 0) :
    legacySelect stmt selectExpr =
      "SELECT " ++ ("TOP(" ++ toString limit ++ ") ") ++ selectExpr ∧
    legacyFrom stmt fromExpr = ("FROM " ++ fromExpr, []) ∧
    legacyOrderBy stmt orderExpr = "ORDER BY " ++ orderExpr ∧
    legacyLimit stmt = "" := by
  have hg : getLimitAndOffsetIfExists stmt = some (limit, 0) := by
    simp [getLimitAndOffsetIfExists, hlim]
  refine ⟨?_, ?_, ?_, rfl⟩
  · simp [legacySelect, hg]
  · simp [legacyFrom, hg]
  · simp [legacyOrderBy, hg]

/-- Witness for C3 at limit = 10. -/
theorem legacy_top_capping_witness :
    legacySelect ⟨some ⟨10, 0⟩, some "\"id\"", none, [], some "\"users\"", "users"⟩ "*" =
      "SELECT TOP(10) *" ∧
    legacyFrom ⟨some ⟨10, 0⟩, some "\"id\"", none, [], some "\"users\"", "users"⟩
        "\"users\"" = ("FROM \"users\"", []) ∧
    legacyOrderBy ⟨some ⟨10, 0⟩, some "\"id\"", none, [], some "\"users\"", "users"⟩
        "\"id\"" = "ORDER BY \"id\"" ∧
    legacyLimit ⟨some ⟨10, 0⟩, some "\"id\"", none, [], some "\"users\"", "users"⟩ = "" :=
  legacy_top_capping _ "*" "\"id\"" "\"users\"" 10 rfl (by decide)

/-- Claim C4 counterexample: with a registered LIMIT clause of limit = 0,
offset = 0 and no ORDER BY clause, the modern LIMIT builder does emit
text — the synthesized no-op ordering — so the clause is not a no-op. -/
theorem modern_limit_zero_zero_counterexample :
    modernLimit ⟨some ⟨0, 0⟩, none, none, [], none, "t"⟩ ⟨0, 0⟩ =
      "ORDER BY (SELECT NULL) " ∧
    "ORDER BY (SELECT NULL) " ≠ "" := by
  refine ⟨rfl, by decide⟩

/-- Claim C4 amended: with limit = 0 and offset = 0 the modern LIMIT
builder emits no OFFSET/FETCH text; it emits nothing at all exactly when
the statement already has an ORDER BY clause, and otherwise emits only the
synthesized ORDER BY (primary key if the schema has one, else the constant
no-op key). -/
theorem modern_limit_zero_zero_amended (stmt : Stmt) :
    modernLimit stmt ⟨0, 0⟩ =
      (match stmt.orderBy with
       | some _ => ""
       | none =>
         match stmt.primaryKey with
         | some pk => "ORDER BY " ++ QuoteTo pk ++ " "
         | none => "ORDER BY (SELECT NULL) ") := by
  simp [modernLimit]

/-- Claim C5: modern LIMIT emission — limit = 10, offset = 0, no ORDER BY,
primary key "id" produces exactly `ORDER BY "id" OFFSET 0 ROW FETCH NEXT
10 ROWS ONLY`; limit = 0, offset = 5 (ORDER BY present) produces exactly
`OFFSET 5 ROWS`, with no FETCH clause. -/
theorem modern_limit_examples :
    modernLimit ⟨some ⟨10, 0⟩, none, some "id", [], none, "t"⟩ ⟨10, 0⟩ =
      "ORDER BY \"id\" OFFSET 0 ROW FETCH NEXT 10 ROWS ONLY" ∧
    modernLimit ⟨some ⟨0, 5⟩, some "\"id\"", none, [], none, "t"⟩ ⟨0, 5⟩ =
      "OFFSET 5 ROWS" := by
  exact ⟨rfl, rfl⟩

/-- Claim C10: in the legacy FROM rewrite with offset > 0, a statement
with no registered FROM clause falls back to `FROM` followed by the quoted
table name as the inner source; the builder is total, so the rewrite never
fails for lack of a FROM clause. -/
theorem legacy_from_table_fallback
    (stmt : Stmt) (fromExpr : String) (limit offset : Int)
    (hlim : stmt.limitClause = some ⟨limit, offset⟩) (hoff : offset > 0)
    (hfrom : stmt.fromClause = none) :
    (legacyFrom stmt fromExpr).1 =
      "FROM (" ++
        (if stmt.selects.length > 0 then
          String.join (stmt.selects.map (fun s => QuoteTo s ++ ",")) ++ "ROW_NUMBER()"
         else "SELECT *, ROW_NUMBER()") ++
      " OVER (ORDER BY " ++
        (match stmt.orderBy with
         | some ob => ob
         | none =>
           match stmt.primaryKey with
           | some pk => QuoteTo pk ++ " "
           | none => "(SELECT NULL) ") ++
      ") AS row " ++ ("FROM " ++ QuoteTo stmt.table) ++ ") a" := by
  have hg : getLimitAndOffsetIfExists stmt = some (limit, offset) := by
    simp [getLimitAndOffsetIfExists, hlim]
  simp [legacyFrom, hg, hoff, hfrom]

/-- Witness for C10 at limit = 5, offset = 3 with no FROM clause. -/
theorem legacy_from_table_fallback_witness :
    (legacyFrom ⟨some ⟨5, 3⟩, none, none, [], none, "users"⟩ "ignored").1 =
      "FROM (SELECT *, ROW_NUMBER() OVER (ORDER BY (SELECT NULL) ) AS row FROM \"users\") a" :=
  legacy_from_table_fallback _ "ignored" 5 3 rfl (by decide) rfl
